import Mathlib

/-!
Verification development for the voice-interaction pipeline
(awesome-user-voice-bot).  The definitions below are a shallow embedding of
the streaming audio segmentation and session-orchestration subsystem:

* `src/core/audio.py` — `pcm16le_to_float32`, `rms`
* `src/stt/server.py` — `BufferState`, `process_buffer`, the `/ws/stt`
  frame-handling loop (`ws_stt`)
* `src/client/app/metrics.py` — `Metrics`
* `src/client/app/websocket.py` — `WebSocketHandler._handle_transcript`,
  `_receiver_task`
* `src/client/app/audio.py` / `src/client/client.py` — the bounded audio
  queue with drop-oldest backpressure
* `src/core/llm.py` — `generate_reply`, `_generate_with_retry`,
  `_generate_with_circuit_breaker`

Machine floats are modelled as exact rationals (`ℚ`); the square root in the
RMS computation lives in `ℝ`.  Where floating-point rounding itself is the
property at issue (the exactness of the `total_buffered` accumulator), a
separate IEEE 754 binary64 model (`fl`, round to nearest, ties to even) is
used.  Time values (`time.monotonic()` readings) are passed explicitly as
rational parameters.  External collaborators (the Whisper transcriber, the
Ollama HTTP backend, the speech synthesizer) are oracles passed as function
parameters.
-/

/-- Python's `str.strip()`: drop whitespace from both ends.  Implemented
over the character list so that it evaluates by kernel reduction. -/
def pyStrip (s : String) : String :=
  ⟨((s.data.dropWhile Char.isWhitespace).reverse.dropWhile
      Char.isWhitespace).reverse⟩

/-- Python's `str.lower()` (ASCII case folding suffices for the `"flush"`
command comparison). -/
def pyLower (s : String) : String :=
  ⟨s.data.map Char.toLower⟩

/-- A PCM16LE chunk is modelled as its list of decoded 16-bit samples
(integers; a well-formed frame has even byte length, two bytes per sample).
The byte length of a chunk is twice its sample count. -/
abbrev Chunk := List ℤ

/-- Embedding of `core/audio.py: pcm16le_to_float32`: interpret the samples
and normalize by dividing by 32768.0. -/
def pcm16le_to_float32 (chunk : Chunk) : List ℚ :=
  chunk.map fun s : ℤ => (s : ℚ) / 32768

/-- The radicand of `core/audio.py: rms` (identical in
`client/app/audio.py: pcm16le_to_rms`): `np.mean(x*x) + 1e-12`.
`np.mean` is the sum divided by the length. -/
def meanSq (x : List ℚ) : ℚ :=
  (x.map fun v => v * v).sum / (x.length : ℚ) + 1 / 10 ^ 12

/-- Embedding of `core/audio.py: rms`: `sqrt(mean(x*x) + 1e-12)`.  The
radicand `meanSq` is executable; the square root itself is the exact real
one, hence this single definition is not. -/
noncomputable def rms (x : List ℚ) : ℝ :=
  Real.sqrt ((meanSq x : ℚ) : ℝ)

/-- The STT server constants, read from `core/config.py: Settings`
(`SAMPLE_RATE`, `SILENCE_RMS_THRESHOLD`, ...). -/
structure SttCfg where
  SAMPLE_RATE : ℚ
  SILENCE_RMS_THRESHOLD : ℚ
  SILENCE_MAX_SECONDS : ℚ
  MIN_UTTERANCE_SECONDS : ℚ
  MAX_UTTERANCE_SECONDS : ℚ
  MAX_BUFFER_SECONDS : ℚ

/-- The default settings of `core/config.py`. -/
def defaultCfg : SttCfg :=
  { SAMPLE_RATE := 16000
    SILENCE_RMS_THRESHOLD := 8 / 1000
    SILENCE_MAX_SECONDS := 7 / 10
    MIN_UTTERANCE_SECONDS := 35 / 100
    MAX_UTTERANCE_SECONDS := 12
    MAX_BUFFER_SECONDS := 120 }

/-- Embedding of `stt/server.py: BufferState`.  `buf` holds the decoded
samples of the accumulated bytes (byte length = `2 * buf.length`). -/
structure BufferState where
  buf : List ℤ
  started : Bool
  utt_start_t : Option ℚ
  last_voice_t : Option ℚ
  total_buffered : ℚ
deriving DecidableEq

/-- The state of a freshly created `BufferState(buf=bytearray())`. -/
def initialState : BufferState :=
  { buf := [], started := false, utt_start_t := none, last_voice_t := none
    total_buffered := 0 }

/-- Embedding of `BufferState.reset`, which clears every field in place;
modelled as returning the cleared state. -/
def BufferState.reset (_st : BufferState) : BufferState :=
  { buf := [], started := false, utt_start_t := none, last_voice_t := none
    total_buffered := 0 }

/-- Messages the server sends on the `/ws/stt` socket. -/
inductive Msg where
  | ready (sr : ℚ)
  | transcript (text : String) (duration : ℚ)
  | flushed
  | error (detail : String)
deriving DecidableEq

/-- Duration of a chunk in seconds: `(len(chunk) / 2) / SAMPLE_RATE`, where
`len(chunk)` is the byte length, i.e. twice the sample count. -/
def chunkDur (cfg : SttCfg) (chunk : Chunk) : ℚ :=
  ((2 * chunk.length : ℚ) / 2) / cfg.SAMPLE_RATE

/-- The server's voice test `rms(pcm16le_to_float32(chunk)) >= SILENCE_RMS_THRESHOLD`,
made decidable by squaring both sides (`rms` is a real square root; for a
positive threshold the two tests agree — see `voiced_iff_rms`). -/
def voiced (cfg : SttCfg) (chunk : Chunk) : Bool :=
  decide (cfg.SILENCE_RMS_THRESHOLD ^ 2 ≤ meanSq (pcm16le_to_float32 chunk))

/-- Embedding of `stt/server.py: process_buffer` (the external transcriber is
the oracle `tr`).  Returns the emitted messages and the number of
transcription calls issued. -/
def process_buffer (cfg : SttCfg) (tr : List ℤ → String) (st : BufferState) :
    List Msg × ℕ :=
  let utter_duration : ℚ := ((2 * st.buf.length : ℚ) / 2) / cfg.SAMPLE_RATE
  if utter_duration < cfg.MIN_UTTERANCE_SECONDS then ([], 0)
  else
    let text := tr st.buf
    if text = "" then ([], 1)
    else ([Msg.transcript text utter_duration], 1)

/-- The in-place mutation of the `ACCUMULATING` branch of `ws_stt` before
the limit checks: extend the buffer, add the chunk duration, refresh
`last_voice_t` when the chunk is voiced.  The addition here is exact
rational arithmetic — an idealization of the float `+=` the program
performs.  This is faithful for every control-flow property (the limit
comparisons tolerate rounding), but not for exact float equality;
`totalBufferedFloat` below models the same accumulation under IEEE
binary64 rounding for the claims where rounding is load-bearing. -/
def accumulate (cfg : SttCfg) (chunk : Chunk) (now : ℚ) (st : BufferState) :
    BufferState :=
  { st with
    buf := st.buf ++ chunk
    total_buffered := st.total_buffered + chunkDur cfg chunk
    last_voice_t := if voiced cfg chunk then some now else st.last_voice_t }

/-- The `MAX_UTTERANCE_SECONDS` check of `ws_stt`:
`state.utt_start_t is not None and (now - state.utt_start_t) >= MAX_UTTERANCE_SECONDS`. -/
def uttTooLong (cfg : SttCfg) (now : ℚ) (st : BufferState) : Bool :=
  match st.utt_start_t with
  | some t => decide (cfg.MAX_UTTERANCE_SECONDS ≤ now - t)
  | none => false

/-- The silence-timeout check of `ws_stt`:
`state.last_voice_t is not None and (now - state.last_voice_t) >= SILENCE_MAX_SECONDS and len(state.buf) > 0`. -/
def silenceTimeout (cfg : SttCfg) (now : ℚ) (st : BufferState) : Bool :=
  match st.last_voice_t with
  | some t => decide (cfg.SILENCE_MAX_SECONDS ≤ now - t) && decide (0 < st.buf.length)
  | none => false

/-- Embedding of the binary-frame branch of `ws_stt` (lines 159-198):
empty chunks are skipped; an idle session starts only on a voiced chunk; an
accumulating session appends and then checks, in order, the max-buffer,
max-utterance and silence-timeout limits, flushing (process + reset) on the
first that fires.  Returns the new state, the emitted messages, and the
number of transcription calls. -/
def handleBinary (cfg : SttCfg) (tr : List ℤ → String) (chunk : Chunk)
    (now : ℚ) (st : BufferState) : BufferState × List Msg × ℕ :=
  if chunk.isEmpty then (st, [], 0)
  else if st.started = false then
    if voiced cfg chunk then
      ({ buf := st.buf ++ chunk, started := true, utt_start_t := some now
         last_voice_t := some now, total_buffered := chunkDur cfg chunk },
       [], 0)
    else (st, [], 0)
  else
    let st1 := accumulate cfg chunk now st
    if cfg.MAX_BUFFER_SECONDS ≤ st1.total_buffered then
      (st1.reset, (process_buffer cfg tr st1).1, (process_buffer cfg tr st1).2)
    else if uttTooLong cfg now st1 then
      (st1.reset, (process_buffer cfg tr st1).1, (process_buffer cfg tr st1).2)
    else if silenceTimeout cfg now st1 then
      (st1.reset, (process_buffer cfg tr st1).1, (process_buffer cfg tr st1).2)
    else (st1, [], 0)

/-- Embedding of the text-frame branch of `ws_stt` (lines 200-205):
`text = (msg["text"] or "").strip().lower()`; a `"flush"` command on a
non-empty buffer processes the buffer, sends `flushed`, and resets. -/
def handleText (cfg : SttCfg) (tr : List ℤ → String) (s : String)
    (st : BufferState) : BufferState × List Msg × ℕ :=
  let t := pyLower (pyStrip s)
  if t = "flush" ∧ 0 < st.buf.length then
    (st.reset, (process_buffer cfg tr st).1 ++ [Msg.flushed],
     (process_buffer cfg tr st).2)
  else (st, [], 0)

/-- One incoming WebSocket frame on `/ws/stt` together with the
`time.monotonic()` reading taken when it is handled. -/
inductive ClientEvent where
  | bin (chunk : Chunk) (now : ℚ)
  | txt (s : String)

/-- Dispatch of one received message in the `ws_stt` loop. -/
def sttStep (cfg : SttCfg) (tr : List ℤ → String) :
    ClientEvent → BufferState → BufferState × List Msg × ℕ
  | .bin chunk now, st => handleBinary cfg tr chunk now st
  | .txt s, st => handleText cfg tr s st

/-- The `ws_stt` receive loop over a list of incoming frames, accumulating
emitted messages and transcription-call counts. -/
def sttRun (cfg : SttCfg) (tr : List ℤ → String) :
    List ClientEvent → BufferState → BufferState × List Msg × ℕ
  | [], st => (st, [], 0)
  | e :: es, st =>
    let r := sttStep cfg tr e st
    let rest := sttRun cfg tr es r.1
    (rest.1, r.2.1 ++ rest.2.1, r.2.2 + rest.2.2)

/-! ### Client-side metrics (`client/app/metrics.py`) -/

/-- Embedding of `client/app/metrics.py: Metrics`. -/
structure Metrics where
  transcriptions : ℕ
  responses_generated : ℕ
  responses_skipped : ℕ
  total_stt_latency : ℚ
  total_tts_latency : ℚ
  total_e2e_latency : ℚ
  stt_errors : ℕ
  tts_errors : ℕ
deriving DecidableEq

/-- The zero-initialized `Metrics()` dataclass. -/
def Metrics.init : Metrics :=
  { transcriptions := 0, responses_generated := 0, responses_skipped := 0
    total_stt_latency := 0, total_tts_latency := 0, total_e2e_latency := 0
    stt_errors := 0, tts_errors := 0 }

/-- Embedding of `Metrics.record_transcription`. -/
def Metrics.record_transcription (m : Metrics) (duration : ℚ) : Metrics :=
  { m with transcriptions := m.transcriptions + 1
           total_stt_latency := m.total_stt_latency + duration }

/-- Embedding of `Metrics.record_response`. -/
def Metrics.record_response (m : Metrics) (tts_duration e2e_duration : ℚ) :
    Metrics :=
  { m with responses_generated := m.responses_generated + 1
           total_tts_latency := m.total_tts_latency + tts_duration
           total_e2e_latency := m.total_e2e_latency + e2e_duration }

/-- Embedding of `Metrics.record_skip`. -/
def Metrics.record_skip (m : Metrics) : Metrics :=
  { m with responses_skipped := m.responses_skipped + 1 }

/-- Embedding of `Metrics.record_stt_error`. -/
def Metrics.record_stt_error (m : Metrics) : Metrics :=
  { m with stt_errors := m.stt_errors + 1 }

/-- Embedding of `Metrics.record_tts_error`. -/
def Metrics.record_tts_error (m : Metrics) : Metrics :=
  { m with tts_errors := m.tts_errors + 1 }

/-! ### Reply orchestration (`client/app/websocket.py`) -/

/-- The mutable per-handler state of `WebSocketHandler` relevant to the
reply pipeline: `last_response_time` and the shared `Metrics`. -/
structure WSState where
  last_response_time : ℚ
  metrics : Metrics
deriving DecidableEq

/-- The `time.monotonic()` readings taken during one `_handle_transcript`
call, plus the outcome of the offloaded synthesis/playback calls:
`now1` at the optimistic cooldown check, `now2` at the authoritative check
after acquiring the lock, `tts_start`/`tts_end` around `generate_speech`,
`e2e_end` at the end-to-end measurement, `resp_end` when
`last_response_time` is assigned after playback.  `synth_ok = false` means
`generate_speech` or `play_wav_file` raised. -/
structure TranscriptEnv where
  now1 : ℚ
  now2 : ℚ
  tts_start : ℚ
  tts_end : ℚ
  e2e_end : ℚ
  resp_end : ℚ
  synth_ok : Bool
deriving DecidableEq

/-- Embedding of `WebSocketHandler._handle_transcript` (lines 195-250):
strip the text (empty is a no-op), record the transcription, apply the
cooldown check twice (before and after the response lock), then synthesize
and play; a synthesis/playback failure is caught and counted as a TTS
error.  Returns the new state and how many synthesis calls were started
(`0` or `1`). -/
def handleTranscript (cooldown : ℚ) (env : TranscriptEnv) (text : String)
    (duration transcript_start : ℚ) (st : WSState) : WSState × ℕ :=
  if pyStrip text = "" then (st, 0)
  else
    let m1 := st.metrics.record_transcription duration
    if env.now1 - st.last_response_time < cooldown then
      ({ st with metrics := m1.record_skip }, 0)
    else if env.now2 - st.last_response_time < cooldown then
      ({ st with metrics := m1.record_skip }, 0)
    else if env.synth_ok then
      ({ last_response_time := env.resp_end
         metrics := m1.record_response (env.tts_end - env.tts_start)
           (env.e2e_end - transcript_start) }, 1)
    else
      ({ st with metrics := m1.record_tts_error }, 1)

/-- A message received by `WebSocketHandler._receiver_task`, after JSON
decoding and `type`-field dispatch. -/
inductive SrvMsg where
  | binary (chunk : Chunk)
  | transcript (text : String) (duration : ℚ)
  | errMsg (detail : String)
  | other (t : String)

/-- Embedding of one iteration of `_receiver_task` (lines 166-185): binary
and unknown messages are ignored; a `transcript` runs the reply pipeline; an
`error` message records an STT error metric and raises, terminating the
session (the exceptional result carries the detail and the state at the
raise). -/
def receiverStep (cooldown : ℚ) (env : TranscriptEnv) (transcript_start : ℚ)
    (msg : SrvMsg) (st : WSState) : Except (String × WSState) (WSState × ℕ) :=
  match msg with
  | .binary _ => .ok (st, 0)
  | .transcript text duration =>
      .ok (handleTranscript cooldown env text duration transcript_start st)
  | .errMsg detail =>
      .error (detail, { st with metrics := st.metrics.record_stt_error })
  | .other _ => .ok (st, 0)

/-- The receiver loop over a list of incoming messages (each paired with its
timing environment and `transcript_start` reading), accumulating the number
of synthesis calls; the loop stops at the first raised error. -/
def runReceiver (cooldown : ℚ) :
    List (SrvMsg × TranscriptEnv × ℚ) → WSState →
    Except (String × WSState) (WSState × ℕ)
  | [], st => .ok (st, 0)
  | (m, env, ts) :: rest, st =>
    match receiverStep cooldown env ts m st with
    | .error e => .error e
    | .ok (st1, c) =>
      match runReceiver cooldown rest st1 with
      | .error e => .error e
      | .ok (st2, c2) => .ok (st2, c + c2)

/-! ### Bounded audio queue (`client/app/audio.py: _audio_callback`,
`client/client.py: _audio_reader_task`) -/

/-- `asyncio.Queue.full()`: true iff the queue is bounded (`maxsize > 0`)
and holds at least `maxsize` items. -/
def queueFull (cap : ℕ) (q : List α) : Bool :=
  decide (0 < cap) && decide (cap ≤ q.length)

/-- One producer push with drop-oldest backpressure.  Both code sites
implement the same policy: `_audio_callback` does `put_nowait`, and on
`QueueFull` does `get_nowait()` (evicting the single oldest frame) followed
by `put_nowait`; `_audio_reader_task` checks `queue.full()` first and, when
full, evicts one frame with `get_nowait()` before `put`.  The head of the
list is the oldest frame. -/
def pushFrame (cap : ℕ) (q : List α) (a : α) : List α :=
  if queueFull cap q then q.tail ++ [a] else q ++ [a]

/-- A whole producer burst: push every frame in order. -/
def pushAll (cap : ℕ) (q : List α) (frames : List α) : List α :=
  frames.foldl (pushFrame cap) q

/-! ### LLM retry and circuit breaker (`core/llm.py`) -/

/-- Embedding of the retry loop of `core/llm.py: _generate_with_retry`
(the later of the two definitions; the first is immediately shadowed).
`req i` is the outcome of the `i`-th HTTP request (`none` models a raised
`requests.exceptions.RequestException`, i.e. an unreachable backend).
Arguments: `total` is `settings.OLLAMA_RETRY_ATTEMPTS`, `remaining` the
attempts left; the current attempt index is `total - remaining`.
Returns the result (`.error` models raising `LLMError`), the number of
requests actually made, and the list of backoff sleeps
(`OLLAMA_RETRY_BACKOFF * 2 ** attempt`) performed. -/
def retryGo (backoff : ℚ) (req : ℕ → Option String) (total : ℕ) :
    ℕ → Except String String × ℕ × List ℚ
  | 0 => (.error "Max retries exceeded", 0, [])
  | remaining + 1 =>
    let attempt := total - (remaining + 1)
    match req attempt with
    | some s => (.ok s, 1, [])
    | none =>
      if 0 < remaining then
        let r := retryGo backoff req total remaining
        (r.1, r.2.1 + 1, backoff * 2 ^ attempt :: r.2.2)
      else (.error "LLMError", 1, [])

/-- Embedding of `core/llm.py: _generate_with_retry`: loop over
`range(OLLAMA_RETRY_ATTEMPTS)`, sleeping `OLLAMA_RETRY_BACKOFF * 2 ** attempt`
between failed attempts, raising `LLMError` on the last failure. -/
def generate_with_retry (attempts : ℕ) (backoff : ℚ)
    (req : ℕ → Option String) : Except String String × ℕ × List ℚ :=
  retryGo backoff req attempts attempts

/-- Embedding of `core/llm.py: generate_reply` together with
`_generate_with_circuit_breaker`: empty (stripped) text short-circuits to
`""`; with the breaker enabled, an open breaker fast-fails with the
distinct "circuit breaker open" `LLMError` and a closed breaker makes a
single request (pybreaker's `CircuitBreaker.call` invokes the wrapped
function once and re-raises its failure, which `_generate_with_circuit_breaker`
converts to `LLMError`); only with the breaker disabled does
`_generate_with_retry` run.  Returns the result, the number of HTTP
requests made, and the backoff sleeps performed. -/
def generate_reply (user_text : String) (cbEnabled cbOpen : Bool)
    (attempts : ℕ) (backoff : ℚ) (req : ℕ → Option String) :
    Except String String × ℕ × List ℚ :=
  if pyStrip user_text = "" then (.ok "", 0, [])
  else if cbEnabled then
    if cbOpen then
      (.error "Service temporarily unavailable (circuit breaker open)", 0, [])
    else
      match req 0 with
      | some s => (.ok s, 1, [])
      | none => (.error "LLMError", 1, [])
  else generate_with_retry attempts backoff req

/-! ### IEEE binary64 arithmetic (the server runs Python floats)

The buffer-machine embedding above idealizes float arithmetic as exact
rationals, which is faithful for every control-flow property but not for
claims about *exact* float equality.  The definitions below model the
rounding the Python interpreter actually performs — IEEE 754 binary64,
round to nearest, ties to even — for values in the normal (finite,
non-subnormal) range, which covers all audio durations involved. -/

/-- Round a rational to the nearest integer, ties to even. -/
def roundNE (q : ℚ) : ℤ :=
  if q - ⌊q⌋ < 1 / 2 then ⌊q⌋
  else if 1 / 2 < q - ⌊q⌋ then ⌊q⌋ + 1
  else if 2 ∣ ⌊q⌋ then ⌊q⌋ else ⌊q⌋ + 1

/-- IEEE binary64 rounding of an exact rational: scale into the 53-bit
significand range `[2^52, 2^53)` using the binary exponent `Int.log 2 x`,
round to nearest with ties to even, and scale back.  Faithful for the
normal range (no overflow/subnormal handling, which the modelled values
never reach). -/
def fl (x : ℚ) : ℚ :=
  if x = 0 then 0
  else if x < 0 then
    -((roundNE (-x / 2 ^ (Int.log 2 (-x) - 52)) : ℚ) * 2 ^ (Int.log 2 (-x) - 52))
  else (roundNE (x / 2 ^ (Int.log 2 x - 52)) : ℚ) * 2 ^ (Int.log 2 x - 52)

/-- The float value of `dur = (len(chunk) / 2) / SAMPLE_RATE`
(`stt/server.py` line 166) under binary64 semantics: each Python `/`
produces the correctly rounded quotient. -/
def durFloat (sr : ℚ) (len : ℕ) : ℚ := fl (fl ((len : ℚ) / 2) / sr)

/-- The float value of `state.total_buffered` after repeated
`state.total_buffered += dur` (`stt/server.py` line 179): binary64 `+`
rounds each partial sum. -/
def accumFloat (sr : ℚ) (acc : ℚ) : List ℕ → ℚ
  | [] => acc
  | l :: ls => accumFloat sr (fl (acc + durFloat sr l)) ls

/-- The float value of `state.total_buffered` after a started session
consumes chunks of the given byte lengths with no flush: the first voiced
chunk assigns `state.total_buffered = dur` exactly (line 174), each later
chunk adds with binary64 rounding. -/
def totalBufferedFloat (sr : ℚ) : List ℕ → ℚ
  | [] => 0
  | l :: ls => accumFloat sr (durFloat sr l) ls

/-! ### Helper lemmas -/

lemma Intlog_eq {x : ℚ} {e : ℤ} (hx : 0 < x)
    (h1 : ((2:ℕ):ℚ) ^ e ≤ x) (h2 : x < ((2:ℕ):ℚ) ^ (e + 1)) :
    Int.log 2 x = e := by
  have ha : e ≤ Int.log 2 x := (Int.zpow_le_iff_le_log one_lt_two hx).mp h1
  have hb : Int.log 2 x < e + 1 := (Int.lt_zpow_iff_log_lt one_lt_two hx).mp h2
  omega

lemma roundNE_eq_of (q : ℚ) (f n : ℤ) (hf1 : (f : ℚ) ≤ q) (hf2 : q < (f:ℚ) + 1)
    (hn : (if q - f < 1/2 then f else if 1/2 < q - f then f + 1
           else if 2 ∣ f then f else f + 1) = n) :
    roundNE q = n := by
  unfold roundNE
  rw [show ⌊q⌋ = f from Int.floor_eq_iff.mpr ⟨hf1, by exact_mod_cast hf2⟩]
  exact hn

lemma fl_eq_of (x v : ℚ) (e n : ℤ) (hx : 0 < x)
    (h1 : ((2:ℕ):ℚ) ^ e ≤ x) (h2 : x < ((2:ℕ):ℚ) ^ (e + 1))
    (hq : roundNE (x / 2 ^ (e - 52)) = n)
    (hv : (n:ℚ) * 2 ^ (e - 52) = v) :
    fl x = v := by
  unfold fl
  rw [if_neg (ne_of_gt hx), if_neg (not_lt.mpr hx.le), Intlog_eq hx h1 h2, hq, hv]

/-- Binary64 value of `3200 / 2` (exact: a small integer). -/
lemma fl_3200_half : fl ((3200:ℚ)/2) = 1600 := by
  apply fl_eq_of _ _ 10 (1600 * 2 ^ 42) (by norm_num) (by norm_num) (by norm_num)
  · apply roundNE_eq_of _ (1600 * 2 ^ 42) _ (by norm_num) (by norm_num)
    norm_num
  · norm_num

/-- Binary64 value of `1600 / 16000 = 0.1`: the familiar double
`0x3FB999999999999A = 3602879701896397 / 2^55`. -/
lemma fl_tenth : fl ((1600:ℚ)/16000) = 7205759403792794 / 2 ^ 56 := by
  apply fl_eq_of _ _ (-4) 7205759403792794 (by norm_num) (by norm_num) (by norm_num)
  · apply roundNE_eq_of _ 7205759403792793 _ (by norm_num) (by norm_num)
    norm_num
  · norm_num

/-- Binary64 value of `0.1 + 0.1`: exactly representable (same significand,
exponent one higher), so no rounding occurs. -/
lemma fl_two_tenths : fl (7205759403792794 / 2 ^ 56 + 7205759403792794 / 2 ^ 56)
    = 7205759403792794 / 2 ^ 55 := by
  apply fl_eq_of _ _ (-3) 7205759403792794 (by norm_num) (by norm_num) (by norm_num)
  · apply roundNE_eq_of _ 7205759403792794 _ (by norm_num) (by norm_num)
    norm_num
  · norm_num

/-- Binary64 value of `0.2 + 0.1`: the 54-bit exact sum falls on a tie,
which rounds to the even significand 5404319552844596 — the double
`0.30000000000000004`. -/
lemma fl_three_tenths_sum :
    fl (7205759403792794 / 2 ^ 55 + 7205759403792794 / 2 ^ 56)
      = 5404319552844596 / 2 ^ 54 := by
  apply fl_eq_of _ _ (-2) 5404319552844596 (by norm_num) (by norm_num) (by norm_num)
  · apply roundNE_eq_of _ 5404319552844595 _ (by norm_num) (by norm_num)
    norm_num
  · norm_num

/-- Binary64 value of `9600 / 2` (exact). -/
lemma fl_9600_half : fl ((9600:ℚ)/2) = 4800 := by
  apply fl_eq_of _ _ 12 (4800 * 2 ^ 40) (by norm_num) (by norm_num) (by norm_num)
  · apply roundNE_eq_of _ (4800 * 2 ^ 40) _ (by norm_num) (by norm_num)
    norm_num
  · norm_num

/-- Binary64 value of `4800 / 16000 = 0.3`: rounds down to the odd
significand 5404319552844595 — the double `0.3`, strictly below the
accumulated `0.30000000000000004`. -/
lemma fl_three_tenths : fl ((4800:ℚ)/16000) = 5404319552844595 / 2 ^ 54 := by
  apply fl_eq_of _ _ (-2) 5404319552844595 (by norm_num) (by norm_num) (by norm_num)
  · apply roundNE_eq_of _ 5404319552844595 _ (by norm_num) (by norm_num)
    norm_num
  · norm_num

/-- The float duration of one 3200-byte (0.1 s at 16 kHz) chunk. -/
lemma durFloat_3200 : durFloat 16000 3200 = 7205759403792794 / 2 ^ 56 := by
  unfold durFloat
  rw [show ((3200 : ℕ) : ℚ) = (3200:ℚ) by norm_num, fl_3200_half, fl_tenth]

lemma meanSq_nonneg (x : List ℚ) : 0 ≤ meanSq x := by
  unfold meanSq
  have h1 : 0 ≤ (x.map fun v => v * v).sum := by
    apply List.sum_nonneg
    intro a ha
    obtain ⟨v, _, rfl⟩ := List.mem_map.mp ha
    exact mul_self_nonneg v
  have h2 : (0 : ℚ) ≤ (x.length : ℚ) := by positivity
  have h3 : (0 : ℚ) ≤ 1 / 10 ^ 12 := by norm_num
  exact add_nonneg (div_nonneg h1 h2) h3

/-- The decidable voice test used in the embedding agrees with the source's
`rms(...) >= SILENCE_RMS_THRESHOLD` comparison whenever the threshold is
positive (it is `0.008` in the default settings). -/
lemma voiced_iff_rms (cfg : SttCfg) (chunk : Chunk)
    (hθ : 0 < cfg.SILENCE_RMS_THRESHOLD) :
    voiced cfg chunk = true ↔
      (cfg.SILENCE_RMS_THRESHOLD : ℝ) ≤ rms (pcm16le_to_float32 chunk) := by
  unfold voiced rms
  rw [decide_eq_true_eq]
  rw [Real.le_sqrt' (by exact_mod_cast hθ)]
  constructor
  · intro h
    calc ((cfg.SILENCE_RMS_THRESHOLD : ℝ)) ^ 2
        = ((cfg.SILENCE_RMS_THRESHOLD ^ 2 : ℚ) : ℝ) := by push_cast; ring
      _ ≤ ((meanSq (pcm16le_to_float32 chunk) : ℚ) : ℝ) := by exact_mod_cast h
  · intro h
    have : ((cfg.SILENCE_RMS_THRESHOLD ^ 2 : ℚ) : ℝ)
        ≤ ((meanSq (pcm16le_to_float32 chunk) : ℚ) : ℝ) := by
      calc ((cfg.SILENCE_RMS_THRESHOLD ^ 2 : ℚ) : ℝ)
          = ((cfg.SILENCE_RMS_THRESHOLD : ℝ)) ^ 2 := by push_cast; ring
        _ ≤ _ := h
    exact_mod_cast this

/-- A frame whose RMS energy is strictly below a positive threshold is not
voiced. -/
lemma voiced_eq_false_of_rms_lt (cfg : SttCfg) (chunk : Chunk)
    (hθ : 0 < cfg.SILENCE_RMS_THRESHOLD)
    (h : rms (pcm16le_to_float32 chunk) < (cfg.SILENCE_RMS_THRESHOLD : ℝ)) :
    voiced cfg chunk = false := by
  rw [Bool.eq_false_iff]
  intro hv
  exact absurd ((voiced_iff_rms cfg chunk hθ).mp hv) (not_le.mpr h)

/-- The buffer-session invariant: an idle session has an empty buffer, and
`total_buffered` is exactly the buffered byte length over `2 * SAMPLE_RATE`. -/
def BufInv (cfg : SttCfg) (st : BufferState) : Prop :=
  (st.started = false → st.buf = []) ∧
  st.total_buffered = ((2 * st.buf.length : ℚ) / 2) / cfg.SAMPLE_RATE

lemma bufInv_initial (cfg : SttCfg) : BufInv cfg initialState := by
  constructor
  · intro _; rfl
  · simp [initialState]

lemma bufInv_reset (cfg : SttCfg) (st : BufferState) :
    BufInv cfg st.reset := by
  constructor
  · intro _; rfl
  · simp [BufferState.reset]

lemma bufInv_handleBinary (cfg : SttCfg) (tr : List ℤ → String)
    (chunk : Chunk) (now : ℚ) (st : BufferState) (h : BufInv cfg st) :
    BufInv cfg (handleBinary cfg tr chunk now st).1 := by
  unfold handleBinary
  split
  · exact h
  · split
    · split
      · refine ⟨fun hc => by simp at hc, ?_⟩
        have hbuf : st.buf = [] := h.1 (by assumption)
        simp [hbuf, chunkDur]
      · exact h
    · dsimp only
      split
      · exact bufInv_reset cfg (accumulate cfg chunk now st)
      · split
        · exact bufInv_reset cfg (accumulate cfg chunk now st)
        · split
          · exact bufInv_reset cfg (accumulate cfg chunk now st)
          · refine ⟨fun hc => ?_, ?_⟩
            · simp only [accumulate] at hc
              exact absurd hc (by simpa using (by assumption : ¬st.started = false))
            · simp only [accumulate, List.length_append]
              rw [h.2]
              unfold chunkDur
              push_cast
              ring

lemma bufInv_handleText (cfg : SttCfg) (tr : List ℤ → String) (s : String)
    (st : BufferState) (h : BufInv cfg st) :
    BufInv cfg (handleText cfg tr s st).1 := by
  unfold handleText
  dsimp only
  split
  · exact bufInv_reset cfg st
  · exact h

lemma bufInv_sttStep (cfg : SttCfg) (tr : List ℤ → String) (e : ClientEvent)
    (st : BufferState) (h : BufInv cfg st) :
    BufInv cfg (sttStep cfg tr e st).1 := by
  cases e with
  | bin chunk now => exact bufInv_handleBinary cfg tr chunk now st h
  | txt s => exact bufInv_handleText cfg tr s st h

lemma bufInv_sttRun (cfg : SttCfg) (tr : List ℤ → String)
    (evs : List ClientEvent) :
    ∀ st : BufferState, BufInv cfg st → BufInv cfg (sttRun cfg tr evs st).1 := by
  induction evs with
  | nil => intro st h; exact h
  | cons e es ih =>
    intro st h
    exact ih _ (bufInv_sttStep cfg tr e st h)

/-! ### Claim theorems -/

/-- C1 counterexample: under the binary64 semantics the program actually
executes, the exact-equality invariant fails.  Three voiced 0.1-second
frames (3200 bytes each at 16 kHz — below every flush limit, so no flush
occurs) accumulate `total_buffered = 0.1 + 0.1 + 0.1 = 0.30000000000000004`,
while `byte_length(buf)/2/SAMPLE_RATE = (9600/2)/16000` evaluates to the
double `0.3` (and exactly to 3/10): the two are different floats, so the
claimed equality is not exact. -/
theorem C1_float_counterexample :
    totalBufferedFloat 16000 [3200, 3200, 3200]
        ≠ fl (fl ((9600 : ℚ) / 2) / 16000) ∧
    totalBufferedFloat 16000 [3200, 3200, 3200]
        ≠ ((9600 : ℚ) / 2) / 16000 := by
  have hl : totalBufferedFloat 16000 [3200, 3200, 3200]
      = 5404319552844596 / 2 ^ 54 := by
    show accumFloat 16000 (durFloat 16000 3200) [3200, 3200] = _
    rw [durFloat_3200]
    show accumFloat 16000 (fl (7205759403792794 / 2 ^ 56 + durFloat 16000 3200))
      [3200] = _
    rw [durFloat_3200, fl_two_tenths]
    show fl (7205759403792794 / 2 ^ 55 + durFloat 16000 3200) = _
    rw [durFloat_3200, fl_three_tenths_sum]
  have hr : fl (fl ((9600 : ℚ) / 2) / 16000) = 5404319552844595 / 2 ^ 54 := by
    rw [fl_9600_half, fl_three_tenths]
  rw [hl, hr]
  constructor <;> norm_num

/-- C1 amended: in exact (real/rational) arithmetic the invariant is an
identity — starting from a fresh `BufferState`, after any sequence of
incoming binary frames, `total_buffered` (the exact sum of the per-chunk
durations, with each flush resetting it to zero alongside the buffer)
equals `byte_length(buf) / 2 / SAMPLE_RATE`.  Under the program's IEEE
binary64 execution this holds only up to accumulation rounding error, not
exactly (see the counterexample above). -/
theorem C1_total_buffered_invariant (cfg : SttCfg) (tr : List ℤ → String)
    (frames : List (Chunk × ℚ)) :
    (sttRun cfg tr (frames.map fun p => ClientEvent.bin p.1 p.2)
        initialState).1.total_buffered
      = ((2 * (sttRun cfg tr (frames.map fun p => ClientEvent.bin p.1 p.2)
          initialState).1.buf.length : ℚ) / 2) / cfg.SAMPLE_RATE :=
  (bufInv_sttRun cfg tr _ initialState (bufInv_initial cfg)).2

/-- C10: a zero-length binary frame on `/ws/stt` leaves the whole
`BufferState` unchanged, emits no message and issues no transcription call;
in particular it can never start an utterance. -/
theorem C10_empty_frame_noop (cfg : SttCfg) (tr : List ℤ → String) (now : ℚ)
    (st : BufferState) :
    handleBinary cfg tr [] now st = (st, [], 0) := rfl

/-- C9: a `"flush"` text command while the buffer is empty is a no-op: the
state is unchanged, no message is emitted and no transcription call is
issued. -/
theorem C9_flush_empty_noop (cfg : SttCfg) (tr : List ℤ → String)
    (st : BufferState) (h : st.buf = []) :
    handleText cfg tr "flush" st = (st, [], 0) := by
  unfold handleText
  rw [if_neg]
  simp [h]

/-- Witness for C9 at a concrete empty-buffer state. -/
theorem C9_flush_empty_noop_witness :
    handleText defaultCfg (fun _ => "hi") "flush" initialState
      = (initialState, [], 0) :=
  C9_flush_empty_noop defaultCfg (fun _ => "hi") initialState rfl

/-- C3: a flush triggered by the max-buffer cap, the max-utterance cap or
the silence timeout leaves the session with an empty buffer and
`started = false` immediately after, regardless of whether the audio was
submitted for transcription. -/
theorem C3_flush_resets_state (cfg : SttCfg) (tr : List ℤ → String)
    (chunk : Chunk) (now : ℚ) (st : BufferState)
    (hstarted : st.started = true) (hne : ¬chunk.isEmpty = true)
    (hflush : cfg.MAX_BUFFER_SECONDS ≤ (accumulate cfg chunk now st).total_buffered
      ∨ uttTooLong cfg now (accumulate cfg chunk now st) = true
      ∨ silenceTimeout cfg now (accumulate cfg chunk now st) = true) :
    (handleBinary cfg tr chunk now st).1.buf = [] ∧
    (handleBinary cfg tr chunk now st).1.started = false := by
  unfold handleBinary
  rw [if_neg hne, if_neg (by simp [hstarted])]
  dsimp only
  split
  · simp [BufferState.reset]
  · split
    · simp [BufferState.reset]
    · split
      · simp [BufferState.reset]
      · rcases hflush with h | h | h
        · exact absurd h (by assumption)
        · exact absurd h (by simp_all)
        · exact absurd h (by simp_all)

/-- Witness for C3: a started session whose utterance began at time 0
receives a frame at time 13, past the default 12-second
`MAX_UTTERANCE_SECONDS` cap. -/
theorem C3_flush_resets_state_witness :
    (handleBinary defaultCfg (fun _ => "") [0] 13
        ⟨[0], true, some 0, some 0, 1 / 16000⟩).1.buf = [] ∧
    (handleBinary defaultCfg (fun _ => "") [0] 13
        ⟨[0], true, some 0, some 0, 1 / 16000⟩).1.started = false := by
  apply C3_flush_resets_state defaultCfg (fun _ => "") [0] 13
    ⟨[0], true, some 0, some 0, 1 / 16000⟩ rfl (by decide)
  refine Or.inr (Or.inl ?_)
  simp only [accumulate, uttTooLong, defaultCfg]
  norm_num

/-- C7: a stream of frames whose RMS energy all lies strictly below
`SILENCE_RMS_THRESHOLD` never leaves the idle state: the buffer session is
unchanged, nothing is appended, no message is emitted and no transcription
call is ever issued. -/
theorem C7_silence_only_stays_idle (cfg : SttCfg) (tr : List ℤ → String)
    (frames : List (Chunk × ℚ))
    (hθ : 0 < cfg.SILENCE_RMS_THRESHOLD)
    (hsil : ∀ p ∈ frames,
      rms (pcm16le_to_float32 p.1) < (cfg.SILENCE_RMS_THRESHOLD : ℝ)) :
    sttRun cfg tr (frames.map fun p => ClientEvent.bin p.1 p.2) initialState
      = (initialState, [], 0) := by
  induction frames with
  | nil => rfl
  | cons p ps ih =>
    have hv : voiced cfg p.1 = false :=
      voiced_eq_false_of_rms_lt cfg p.1 hθ (hsil p (List.mem_cons_self p ps))
    have hstep : handleBinary cfg tr p.1 p.2 initialState
        = (initialState, [], 0) := by
      unfold handleBinary
      split
      · rfl
      · simp [initialState, hv]
    have hrest := ih fun q hq => hsil q (List.mem_cons_of_mem p hq)
    simp [sttRun, sttStep, hstep, hrest]

/-- Witness for C7: two all-zero frames and one tiny-amplitude frame, all
below the default threshold, leave a fresh session untouched. -/
theorem C7_silence_only_stays_idle_witness :
    sttRun defaultCfg (fun _ => "hi")
        ([([0, 0], 1), ([10, -10], 2)].map fun p => ClientEvent.bin p.1 p.2)
        initialState
      = (initialState, [], 0) := by
  apply C7_silence_only_stays_idle defaultCfg (fun _ => "hi")
    [([0, 0], 1), ([10, -10], 2)] (by norm_num [defaultCfg])
  intro p hp
  have hb : meanSq (pcm16le_to_float32 p.1)
      < defaultCfg.SILENCE_RMS_THRESHOLD ^ 2 := by
    have hp2 : p = ([0, 0], 1) ∨ p = ([10, -10], 2) := by simpa using hp
    rcases hp2 with rfl | rfl
    · simp only [pcm16le_to_float32, meanSq, defaultCfg, List.map, List.sum,
        List.length]
      norm_num
    · simp only [pcm16le_to_float32, meanSq, defaultCfg, List.map, List.sum,
        List.length]
      norm_num
  have h0 : (0 : ℝ) < (defaultCfg.SILENCE_RMS_THRESHOLD : ℚ) := by
    norm_num [defaultCfg]
  unfold rms
  rw [Real.sqrt_lt' h0]
  calc ((meanSq (pcm16le_to_float32 p.1) : ℚ) : ℝ)
      < ((defaultCfg.SILENCE_RMS_THRESHOLD ^ 2 : ℚ) : ℝ) := by exact_mod_cast hb
    _ = ((defaultCfg.SILENCE_RMS_THRESHOLD : ℚ) : ℝ) ^ 2 := by push_cast; ring

/-- The successful-reply branch of `_handle_transcript`: non-empty text,
both cooldown checks pass, synthesis and playback succeed. -/
lemma handleTranscript_success (cd : ℚ) (env : TranscriptEnv) (t : String)
    (d ts : ℚ) (S : WSState)
    (ht : ¬pyStrip t = "")
    (hc1 : ¬(env.now1 - S.last_response_time < cd))
    (hc2 : ¬(env.now2 - S.last_response_time < cd))
    (hok : env.synth_ok = true) :
    handleTranscript cd env t d ts S
      = ({ last_response_time := env.resp_end
           metrics := (S.metrics.record_transcription d).record_response
             (env.tts_end - env.tts_start) (env.e2e_end - ts) }, 1) := by
  unfold handleTranscript
  rw [if_neg ht]
  dsimp only
  rw [if_neg hc1, if_neg hc2, if_pos hok]

/-- The early-skip branch of `_handle_transcript`: non-empty text, first
cooldown check fails. -/
lemma handleTranscript_skip (cd : ℚ) (env : TranscriptEnv) (t : String)
    (d ts : ℚ) (S : WSState)
    (ht : ¬pyStrip t = "")
    (hc : env.now1 - S.last_response_time < cd) :
    handleTranscript cd env t d ts S
      = ({ S with
           metrics := (S.metrics.record_transcription d).record_skip }, 0) := by
  unfold handleTranscript
  rw [if_neg ht]
  dsimp only
  rw [if_pos hc]

/-- The caught-failure branch of `_handle_transcript`: non-empty text, both
cooldown checks pass, synthesis or playback raises. -/
lemma handleTranscript_ttsFail (cd : ℚ) (env : TranscriptEnv) (t : String)
    (d ts : ℚ) (S : WSState)
    (ht : ¬pyStrip t = "")
    (hc1 : ¬(env.now1 - S.last_response_time < cd))
    (hc2 : ¬(env.now2 - S.last_response_time < cd))
    (hfail : env.synth_ok = false) :
    handleTranscript cd env t d ts S
      = ({ S with
           metrics := (S.metrics.record_transcription d).record_tts_error },
         1) := by
  unfold handleTranscript
  rw [if_neg ht]
  dsimp only
  rw [if_neg hc1, if_neg hc2, hfail]
  simp

/-- C2: two transcripts handled less than `cooldown_seconds` apart (the
second one measured against the `last_response_time` set when the first
reply finished playing) result in exactly one synthesis call: the first
transcript synthesizes, the second increments `responses_skipped` and never
reaches the synthesizer. -/
theorem C2_cooldown_single_synthesis (cd : ℚ) (env1 env2 : TranscriptEnv)
    (t1 t2 : String) (d1 d2 ts1 ts2 : ℚ) (st0 : WSState)
    (ht1 : ¬pyStrip t1 = "") (ht2 : ¬pyStrip t2 = "")
    (hc1 : ¬(env1.now1 - st0.last_response_time < cd))
    (hc2 : ¬(env1.now2 - st0.last_response_time < cd))
    (hok : env1.synth_ok = true)
    (hcool : env2.now1 - (handleTranscript cd env1 t1 d1 ts1 st0).1.last_response_time < cd) :
    (handleTranscript cd env1 t1 d1 ts1 st0).2 = 1 ∧
    (handleTranscript cd env2 t2 d2 ts2
        (handleTranscript cd env1 t1 d1 ts1 st0).1).2 = 0 ∧
    (handleTranscript cd env2 t2 d2 ts2
          (handleTranscript cd env1 t1 d1 ts1 st0).1).1.metrics.responses_skipped
      = (handleTranscript cd env1 t1 d1 ts1 st0).1.metrics.responses_skipped + 1 := by
  have h1 := handleTranscript_success cd env1 t1 d1 ts1 st0 ht1 hc1 hc2 hok
  have h2 := handleTranscript_skip cd env2 t2 d2 ts2
    (handleTranscript cd env1 t1 d1 ts1 st0).1 ht2 hcool
  refine ⟨by rw [h1], by rw [h2], ?_⟩
  rw [h2]
  simp [Metrics.record_skip, Metrics.record_transcription]

/-- Witness for C2: with a 5-second cooldown, a first transcript at t = 10
whose reply finishes at t = 12 and a second transcript at t = 13. -/
theorem C2_cooldown_single_synthesis_witness :
    (handleTranscript 5 ⟨10, 10, 10, 11, 12, 12, true⟩ "hi" 1 9
        ⟨0, Metrics.init⟩).2 = 1 ∧
    (handleTranscript 5 ⟨13, 13, 13, 13, 13, 13, true⟩ "yo" 1 12
        (handleTranscript 5 ⟨10, 10, 10, 11, 12, 12, true⟩ "hi" 1 9
          ⟨0, Metrics.init⟩).1).2 = 0 ∧
    (handleTranscript 5 ⟨13, 13, 13, 13, 13, 13, true⟩ "yo" 1 12
          (handleTranscript 5 ⟨10, 10, 10, 11, 12, 12, true⟩ "hi" 1 9
            ⟨0, Metrics.init⟩).1).1.metrics.responses_skipped
      = (handleTranscript 5 ⟨10, 10, 10, 11, 12, 12, true⟩ "hi" 1 9
          ⟨0, Metrics.init⟩).1.metrics.responses_skipped + 1 := by
  apply C2_cooldown_single_synthesis 5 ⟨10, 10, 10, 11, 12, 12, true⟩
    ⟨13, 13, 13, 13, 13, 13, true⟩ "hi" "yo" 1 1 9 12 ⟨0, Metrics.init⟩
    (by decide) (by decide) (by norm_num) (by norm_num) rfl
  rw [handleTranscript_success 5 ⟨10, 10, 10, 11, 12, 12, true⟩ "hi" 1 9
    ⟨0, Metrics.init⟩ (by decide) (by norm_num) (by norm_num) rfl]
  norm_num

/-- C8: a synthesis/playback failure during a reply is caught inside the
transcript handler: it is counted as a TTS error, does not count a
generated response, leaves `last_response_time` unchanged, does not
terminate the receiver loop, and subsequent messages continue to be
processed. -/
theorem C8_tts_failure_recoverable (cd : ℚ) (env : TranscriptEnv)
    (text : String) (d ts : ℚ) (st : WSState)
    (rest : List (SrvMsg × TranscriptEnv × ℚ))
    (htext : ¬pyStrip text = "")
    (hc1 : ¬(env.now1 - st.last_response_time < cd))
    (hc2 : ¬(env.now2 - st.last_response_time < cd))
    (hfail : env.synth_ok = false) :
    receiverStep cd env ts (SrvMsg.transcript text d) st
      = .ok ({ st with
          metrics := (st.metrics.record_transcription d).record_tts_error }, 1) ∧
    (st.metrics.record_transcription d).record_tts_error.tts_errors
      = st.metrics.tts_errors + 1 ∧
    (st.metrics.record_transcription d).record_tts_error.responses_generated
      = st.metrics.responses_generated ∧
    runReceiver cd ((SrvMsg.transcript text d, env, ts) :: rest) st
      = Except.map (fun p => (p.1, 1 + p.2))
          (runReceiver cd rest
            { st with
              metrics := (st.metrics.record_transcription d).record_tts_error }) := by
  have hh := handleTranscript_ttsFail cd env text d ts st htext hc1 hc2 hfail
  have hstep : receiverStep cd env ts (SrvMsg.transcript text d) st
      = .ok ({ st with
          metrics := (st.metrics.record_transcription d).record_tts_error },
        1) := by
    show Except.ok (handleTranscript cd env text d ts st) = _
    rw [hh]
  refine ⟨hstep, by simp [Metrics.record_tts_error, Metrics.record_transcription],
    by simp [Metrics.record_tts_error, Metrics.record_transcription], ?_⟩
  have hcons : runReceiver cd ((SrvMsg.transcript text d, env, ts) :: rest) st
      = match runReceiver cd rest
          { st with
            metrics := (st.metrics.record_transcription d).record_tts_error } with
        | .error e => .error e
        | .ok (st2, c2) => .ok (st2, 1 + c2) := by
    simp only [runReceiver, hstep]
  rw [hcons]
  cases hrr : runReceiver cd rest
      { st with
        metrics := (st.metrics.record_transcription d).record_tts_error } with
  | error e => simp [Except.map]
  | ok p => cases p with
    | mk st2 c2 => simp [Except.map]

/-- Witness for C8: a failing synthesis on a concrete transcript, followed
by one more (binary, hence ignored) message. -/
theorem C8_tts_failure_recoverable_witness :
    receiverStep 5 ⟨10, 10, 10, 11, 12, 12, false⟩ 9
        (SrvMsg.transcript "hi" 1) ⟨0, Metrics.init⟩
      = .ok ({ last_response_time := 0
               metrics := ((Metrics.init).record_transcription 1).record_tts_error },
             1) ∧
    ((Metrics.init).record_transcription 1).record_tts_error.tts_errors
      = (Metrics.init).tts_errors + 1 ∧
    ((Metrics.init).record_transcription 1).record_tts_error.responses_generated
      = (Metrics.init).responses_generated ∧
    runReceiver 5 [(SrvMsg.transcript "hi" 1, ⟨10, 10, 10, 11, 12, 12, false⟩, 9),
        (SrvMsg.binary [0], ⟨0, 0, 0, 0, 0, 0, true⟩, 0)] ⟨0, Metrics.init⟩
      = Except.map (fun p => (p.1, 1 + p.2))
          (runReceiver 5 [(SrvMsg.binary [0], ⟨0, 0, 0, 0, 0, 0, true⟩, 0)]
            { last_response_time := 0
              metrics := ((Metrics.init).record_transcription 1).record_tts_error }) :=
  C8_tts_failure_recoverable 5 ⟨10, 10, 10, 11, 12, 12, false⟩ "hi" 1 9
    ⟨0, Metrics.init⟩ [(SrvMsg.binary [0], ⟨0, 0, 0, 0, 0, 0, true⟩, 0)]
    (by decide) (by norm_num) (by norm_num) rfl

/-! ### Queue backpressure lemmas -/

lemma pushFrame_drop {α : Type} (cap : ℕ) (hcap : 0 < cap) (q : List α)
    (hq : q.length ≤ cap) (a : α) :
    pushFrame cap q a = (q ++ [a]).drop (q.length + 1 - cap) := by
  unfold pushFrame queueFull
  rcases lt_or_eq_of_le hq with hlt | heq
  · rw [if_neg (by simp; omega)]
    rw [Nat.sub_eq_zero_of_le hlt]
    rfl
  · rw [if_pos (by simp; omega)]
    have h1 : q.length + 1 - cap = 1 := by omega
    rw [h1]
    cases q with
    | nil =>
        exfalso
        simp only [List.length_nil] at heq
        omega
    | cons x xs => simp

lemma pushAll_drop {α : Type} (cap : ℕ) (hcap : 0 < cap) :
    ∀ (xs q : List α), q.length ≤ cap →
      pushAll cap q xs = (q ++ xs).drop (q.length + xs.length - cap)
  | [], q, hq => by
      simp [pushAll, Nat.sub_eq_zero_of_le hq]
  | a :: xs, q, hq => by
      have hpf := pushFrame_drop cap hcap q hq a
      have hk : q.length + 1 - cap ≤ (q ++ [a]).length := by
        simp only [List.length_append, List.length_cons, List.length_nil]
        omega
      have hlen : (pushFrame cap q a).length = q.length + 1 - (q.length + 1 - cap) := by
        rw [hpf, List.length_drop, List.length_append, List.length_cons,
          List.length_nil]
      have hle : (pushFrame cap q a).length ≤ cap := by omega
      have ih := pushAll_drop cap hcap xs (pushFrame cap q a) hle
      have hfold : pushAll cap q (a :: xs) = pushAll cap (pushFrame cap q a) xs := rfl
      rw [hfold, ih, hlen, hpf,
        ← List.drop_append_of_le_length hk, List.drop_drop]
      have harith : q.length + 1 - cap + (q.length + 1 - (q.length + 1 - cap)
          + xs.length - cap) = q.length + (a :: xs).length - cap := by
        simp only [List.length_cons]
        omega
      rw [harith]
      congr 1
      simp

/-- C6: pushing any sequence of frames into the bounded queue (which never
blocks and never raises) leaves exactly the most-recent `capacity` frames,
in arrival order. -/
theorem C6_queue_keeps_most_recent {α : Type} (cap : ℕ) (frames : List α)
    (hcap : 0 < cap) :
    pushAll cap [] frames = frames.drop (frames.length - cap) := by
  have h := pushAll_drop cap hcap frames [] (by simp)
  simpa using h

/-- Witness for C6: pushing three frames through a capacity-2 queue keeps
the last two. -/
theorem C6_queue_keeps_most_recent_witness :
    pushAll 2 ([] : List ℕ) [1, 2, 3]
      = [1, 2, 3].drop ([1, 2, 3].length - 2) :=
  C6_queue_keeps_most_recent 2 [1, 2, 3] (by decide)

/-- With an always-failing backend, the retry loop makes exactly
`remaining` requests, raises `LLMError`, and sleeps the exponential-backoff
schedule `backoff * 2 ^ attempt` between consecutive attempts. -/
lemma retryGo_allFail (b : ℚ) (req : ℕ → Option String)
    (hreq : ∀ i, req i = none) (total : ℕ) :
    ∀ r : ℕ, 0 < r → r ≤ total →
      retryGo b req total r
        = (.error "LLMError", r,
           (List.range (r - 1)).map fun j => b * 2 ^ (total - r + j))
  | 0, h, _ => absurd h (lt_irrefl 0)
  | 1, _, _ => by
      simp [retryGo, hreq]
  | r + 2, _, hle => by
      have ih := retryGo_allFail b req hreq total (r + 1) (Nat.succ_pos r)
        (by omega)
      rw [retryGo.eq_def]
      dsimp only
      rw [hreq]
      dsimp only
      rw [if_pos (Nat.succ_pos r), ih]
      have hlist : (List.range (r + 2 - 1)).map
            (fun j => b * 2 ^ (total - (r + 2) + j))
          = b * 2 ^ (total - (r + 2))
            :: (List.range (r + 1 - 1)).map
              (fun j => b * 2 ^ (total - (r + 1) + j)) := by
        have hr : r + 2 - 1 = (r + 1 - 1) + 1 := rfl
        rw [hr, List.range_succ_eq_map, List.map_cons, List.map_map]
        congr 1
        congr 1
        funext j
        show b * 2 ^ (total - (r + 2) + (j + 1)) = b * 2 ^ (total - (r + 1) + j)
        have he : total - (r + 2) + (j + 1) = total - (r + 1) + j := by omega
        rw [he]
      rw [hlist]

/-- C4 counterexample: with the circuit breaker enabled and closed (not
open), three configured retry attempts and an unreachable backend,
`generate_reply` issues exactly one request — not three — before surfacing
`LLMError`. -/
theorem C4_counterexample :
    (generate_reply "hello" true false 3 1 (fun _ => none)).2.1 = 1 ∧
    ¬(generate_reply "hello" true false 3 1 (fun _ => none)).2.1 = 3 := by
  have h : generate_reply "hello" true false 3 1 (fun _ => none)
      = (.error "LLMError", 1, []) := by
    simp [generate_reply, show ¬pyStrip "hello" = "" by decide]
  rw [h]
  exact ⟨rfl, by decide⟩

/-- C4 amended: when the backend is unreachable, `generate_reply` retries
with exponential backoff up to the configured attempt count only when the
circuit breaker is disabled; when the breaker is enabled and not open, a
single request is made and its failure surfaces immediately as the typed
`LLMError` (repeated failures are instead handled by the breaker opening). -/
theorem C4_retry_only_when_breaker_disabled (t : String) (attempts : ℕ)
    (b : ℚ) (req : ℕ → Option String)
    (ht : ¬pyStrip t = "") (hreq : ∀ i, req i = none) (hat : 0 < attempts) :
    generate_reply t false false attempts b req
        = (.error "LLMError", attempts,
           (List.range (attempts - 1)).map fun j => b * 2 ^ j) ∧
    generate_reply t true false attempts b req
        = (.error "LLMError", 1, []) := by
  constructor
  · unfold generate_reply
    rw [if_neg ht]
    simp only [Bool.false_eq_true, if_false]
    unfold generate_with_retry
    rw [retryGo_allFail b req hreq attempts attempts hat le_rfl]
    have : ∀ j : ℕ, attempts - attempts + j = j := by
      intro j
      omega
    simp [this]
  · unfold generate_reply
    rw [if_neg ht]
    simp only [if_true]
    rw [hreq 0]
    simp

/-- Witness for the amended C4 at the default retry configuration
(3 attempts, backoff 1). -/
theorem C4_retry_only_when_breaker_disabled_witness :
    generate_reply "hello" false false 3 1 (fun _ => none)
        = (.error "LLMError", 3, (List.range (3 - 1)).map fun j => (1 : ℚ) * 2 ^ j) ∧
    generate_reply "hello" true false 3 1 (fun _ => none)
        = (.error "LLMError", 1, []) :=
  C4_retry_only_when_breaker_disabled "hello" 3 1 (fun _ => none)
    (by decide) (fun _ => rfl) (by decide)

/-! ### RMS numerics -/

lemma meanSq_all_zero (n : ℕ) :
    meanSq (pcm16le_to_float32 (List.replicate n (0 : ℤ))) = 1 / 10 ^ 12 := by
  have h1 : pcm16le_to_float32 (List.replicate n (0 : ℤ))
      = List.replicate n (0 : ℚ) := by
    unfold pcm16le_to_float32
    rw [List.map_replicate]
    norm_num
  rw [h1]
  unfold meanSq
  rw [List.map_replicate]
  simp

lemma rms_all_zero (n : ℕ) :
    rms (pcm16le_to_float32 (List.replicate n (0 : ℤ))) = 1 / 10 ^ 6 := by
  unfold rms
  rw [meanSq_all_zero]
  have h : ((1 / 10 ^ 12 : ℚ) : ℝ) = (1 / 10 ^ 6 : ℝ) ^ 2 := by
    push_cast
    norm_num
  rw [h, Real.sqrt_sq (by norm_num)]

lemma meanSq_square_wave_bounds :
    (9999 / 10000 : ℚ) ^ 2 < meanSq (pcm16le_to_float32 [32767, -32768]) ∧
    meanSq (pcm16le_to_float32 [32767, -32768]) < 1 := by
  constructor <;>
    · simp only [pcm16le_to_float32, meanSq, List.map, List.sum, List.length]
      norm_num

lemma rms_square_wave :
    |rms (pcm16le_to_float32 [32767, -32768]) - 1| < 1 / 10 ^ 4 := by
  obtain ⟨hlo, hhi⟩ := meanSq_square_wave_bounds
  have hm0 : (0 : ℝ) ≤ ((meanSq (pcm16le_to_float32 [32767, -32768]) : ℚ) : ℝ) := by
    exact_mod_cast meanSq_nonneg _
  have h1 : rms (pcm16le_to_float32 [32767, -32768]) < 1 := by
    unfold rms
    calc Real.sqrt ((meanSq (pcm16le_to_float32 [32767, -32768]) : ℚ) : ℝ)
        < Real.sqrt 1 := Real.sqrt_lt_sqrt hm0 (by exact_mod_cast hhi)
      _ = 1 := Real.sqrt_one
  have h2 : (9999 / 10000 : ℝ) < rms (pcm16le_to_float32 [32767, -32768]) := by
    unfold rms
    rw [Real.lt_sqrt (by norm_num)]
    calc ((9999 / 10000 : ℝ)) ^ 2
        = (((9999 / 10000 : ℚ) ^ 2 : ℚ) : ℝ) := by push_cast; ring
      _ < _ := by exact_mod_cast hlo
  rw [abs_sub_lt_iff]
  constructor <;> [linarith; linarith]

/-- C5 counterexample: on a concrete all-zero buffer the RMS equals the
square root of the 1e-12 epsilon, which is exactly 1e-6 — not strictly less
than 1e-6 as the claim states. -/
theorem C5_counterexample :
    ¬ rms (pcm16le_to_float32 (List.replicate 2 (0 : ℤ))) < 1 / 10 ^ 6 := by
  rw [rms_all_zero 2]
  exact lt_irrefl _

/-- C5 amended: the RMS of a (non-empty) all-zero buffer equals exactly
1e-6 (so it is at most, but not strictly below, 1e-6), and the RMS of the
full-scale square wave (alternating +32767 / -32768 samples normalized to
±1.0) is within 1e-4 of 1.0. -/
theorem C5_rms_endpoints (n : ℕ) (_hn : 0 < n) :
    rms (pcm16le_to_float32 (List.replicate n (0 : ℤ))) = 1 / 10 ^ 6 ∧
    |rms (pcm16le_to_float32 [32767, -32768]) - 1| < 1 / 10 ^ 4 :=
  ⟨rms_all_zero n, rms_square_wave⟩

/-- Witness for C5 at a three-sample zero buffer. -/
theorem C5_rms_endpoints_witness :
    0 < 3 ∧
    (rms (pcm16le_to_float32 (List.replicate 3 (0 : ℤ))) = 1 / 10 ^ 6 ∧
     |rms (pcm16le_to_float32 [32767, -32768]) - 1| < 1 / 10 ^ 4) :=
  ⟨by decide, C5_rms_endpoints 3 (by decide)⟩
